import Mathlib

/-!
Verification of the graphenestorage master-password manager
(`src/graphenestorage/masterpassword.py`) and the generic store interface
(`src/graphenestorage/interfaces.py`).

The Python code is shallowly embedded as follows.

* A `MasterPassword` object is the record `MPState` holding the configuration
  store, the held password (`self.password`) and the resident decrypted master
  key (`self.decrypted_master`).  Python `None` is `Option.none`.
* Every method becomes a function `... → Res α`: `Res.ok` is a normal return,
  `Res.err` is a raised exception; both carry the object state at the moment
  control leaves the method, since Python exceptions do not roll back field
  assignments.
* The external `AESCipher` primitive (module `graphenebase.aes`, outside this
  repository) is an opaque pair of functions; `decrypt` returns `none` when the
  real cipher would raise.  The external `bip38` wrap/unwrap primitive is
  likewise passed in as opaque functions.
* `os.environ.get("UNLOCK")` is the `env` field of the ambient context `Ctx`,
  and each call of `os.urandom` is an explicit `rnd : String` argument (the
  already-hexlified fresh master key).
* The methods `unlocked / unlock / new_master / save_encrypted_master /
  get_encrypted_master` are mutually recursive in the source; the recursion is
  bounded (the inner `unlocked` call always sees a held password), and it is
  embedded with an explicit fuel argument.  `PyErr.outOfFuel` never occurs for
  the fuel used in the theorems below — every stated result is a real
  `ok`/`err` outcome, which is only reachable without exhausting fuel.
* `hashlib.sha256` (Python standard library, external to the repository) is
  modelled concretely per FIPS 180-4 so that checksum behaviour is computable.
-/

set_option autoImplicit false
set_option maxRecDepth 40000

/-- Python string truthiness: a string is truthy iff it is non-empty
(`bool(s)` for `str`). -/
def truthyStr (s : String) : Bool := s ≠ ""

/-- Truthiness of an optional string value: `bool(x)` where `x` is a string or
`None`. -/
def optTruthy : Option String → Bool
  | some s => truthyStr s
  | none => false

/-- ASCII-encodability of a string: `bytes(s, "ascii")` succeeds iff every
character is below code point 128. -/
def allAscii (s : String) : Bool := s.toList.all (fun c => c.toNat < 128)

/-- The byte sequence `bytes(s, "ascii")` for an ASCII-encodable string. -/
def asciiBytes (s : String) : List Nat := s.toList.map Char.toNat

/-- Python `str.split(sep)` for a one-character separator, on the character
list of the string: `"a$b".split("$") == ["a", "b"]`, `"ab".split("$") ==
["ab"]`, `"".split("$") == [""]`. -/
def splitOnChar (c : Char) : List Char → List (List Char)
  | [] => [[]]
  | x :: xs =>
    let r := splitOnChar c xs
    if x = c then [] :: r
    else
      match r with
      | y :: ys => (x :: y) :: ys
      | [] => [[x]]

/-- `s.split("$")` as used by `decrypt_encrypted_master`. -/
def splitDollar (s : String) : List String :=
  (splitOnChar ('$') s.toList).map String.mk

/-! SHA-256, modelled per FIPS 180-4.  This is the external
`hashlib.sha256(...).hexdigest()` primitive used by
`MasterPassword.derive_checksum`; it is not code of this repository, but the
checksum claims quantify over its exact output, so it is embedded concretely.
All words are `Nat` reduced mod 2^32. -/

/-- Truncation to a 32-bit word. -/
def w32 (x : Nat) : Nat := x % 4294967296

/-- 32-bit right rotation. -/
def rotr (n x : Nat) : Nat := w32 ((x >>> n) ||| (x <<< (32 - n)))

def bigSigma0 (x : Nat) : Nat := (rotr 2 x) ^^^ (rotr 13 x) ^^^ (rotr 22 x)

def bigSigma1 (x : Nat) : Nat := (rotr 6 x) ^^^ (rotr 11 x) ^^^ (rotr 25 x)

def smallSigma0 (x : Nat) : Nat := (rotr 7 x) ^^^ (rotr 18 x) ^^^ (x >>> 3)

def smallSigma1 (x : Nat) : Nat := (rotr 17 x) ^^^ (rotr 19 x) ^^^ (x >>> 10)

/-- The SHA-256 `Ch` function; complement is xor with the 32-bit mask. -/
def chF (x y z : Nat) : Nat := (x &&& y) ^^^ ((x ^^^ 4294967295) &&& z)

/-- The SHA-256 `Maj` function. -/
def majF (x y z : Nat) : Nat := (x &&& y) ^^^ (x &&& z) ^^^ (y &&& z)

/-- The eight 32-bit words of a SHA-256 hash state. -/
structure Sha256St where
  s0 : Nat
  s1 : Nat
  s2 : Nat
  s3 : Nat
  s4 : Nat
  s5 : Nat
  s6 : Nat
  s7 : Nat
deriving Repr, DecidableEq

/-- SHA-256 initial hash value. -/
def shaInit : Sha256St :=
  ⟨1779033703, 3144134277, 1013904242, 2773480762,
   1359893119, 2600822924, 528734635, 1541459225⟩

/-- SHA-256 round constants. -/
def K256 : List Nat :=
  [1116352408, 1899447441, 3049323471, 3921009573, 961987163, 1508970993,
   2453635748, 2870763221, 3624381080, 310598401, 607225278, 1426881987,
   1925078388, 2162078206, 2614888103, 3248222580, 3835390401, 4022224774,
   264347078, 604807628, 770255983, 1249150122, 1555081692, 1996064986,
   2554220882, 2821834349, 2952996808, 3210313671, 3336571891, 3584528711,
   113926993, 338241895, 666307205, 773529912, 1294757372, 1396182291,
   1695183700, 1986661051, 2177026350, 2456956037, 2730485921, 2820302411,
   3259730800, 3345764771, 3516065817, 3600352804, 4094571909, 275423344,
   430227734, 506948616, 659060556, 883997877, 958139571, 1322822218,
   1537002063, 1747873779, 1955562222, 2024104815, 2227730452, 2361852424,
   2428436474, 2756734187, 3204031479, 3329325298]

/-- Big-endian packing of bytes into 32-bit words. -/
def toWords : List Nat → List Nat
  | b0 :: b1 :: b2 :: b3 :: rest => (((b0 * 256 + b1) * 256 + b2) * 256 + b3) :: toWords rest
  | _ => []

/-- One step of the message-schedule extension. -/
def stepW (ws : List Nat) : List Nat :=
  let n := ws.length
  ws ++ [w32 (smallSigma1 (ws.getD (n - 2) 0) + ws.getD (n - 7) 0 +
              smallSigma0 (ws.getD (n - 15) 0) + ws.getD (n - 16) 0)]

/-- Extend the 16-word schedule by the given number of words. -/
def extendW (ws : List Nat) : Nat → List Nat
  | 0 => ws
  | k + 1 => extendW (stepW ws) k

/-- One SHA-256 compression round. -/
def shaRound (st : Sha256St) (k w : Nat) : Sha256St :=
  let t1 := w32 (st.s7 + bigSigma1 st.s4 + chF st.s4 st.s5 st.s6 + k + w)
  let t2 := w32 (bigSigma0 st.s0 + majF st.s0 st.s1 st.s2)
  ⟨w32 (t1 + t2), st.s0, st.s1, st.s2, w32 (st.s3 + t1), st.s4, st.s5, st.s6⟩

/-- Run the 64 compression rounds over paired round constants and schedule. -/
def compressList (st : Sha256St) : List (Nat × Nat) → Sha256St
  | [] => st
  | (k, w) :: rest => compressList (shaRound st k w) rest

/-- Process one 64-byte block. -/
def processBlock (st : Sha256St) (block : List Nat) : Sha256St :=
  let ws := extendW (toWords block) 48
  let st' := compressList st (K256.zip ws)
  ⟨w32 (st.s0 + st'.s0), w32 (st.s1 + st'.s1), w32 (st.s2 + st'.s2), w32 (st.s3 + st'.s3),
   w32 (st.s4 + st'.s4), w32 (st.s5 + st'.s5), w32 (st.s6 + st'.s6), w32 (st.s7 + st'.s7)⟩

/-- Big-endian byte rendering of a value into the given number of bytes. -/
def beBytes : Nat → Nat → List Nat
  | 0, _ => []
  | n + 1, v => beBytes n (v / 256) ++ [v % 256]

/-- SHA-256 padding: append `0x80`, zeros to 56 mod 64, then the 64-bit
big-endian bit length. -/
def sha256pad (m : List Nat) : List Nat :=
  let L := m.length
  m ++ [128] ++ List.replicate ((120 - (L + 1) % 64) % 64) 0 ++ beBytes 8 (8 * L)

/-- Fold the compression function over the given number of 64-byte blocks. -/
def sha256iter (st : Sha256St) : Nat → List Nat → Sha256St
  | 0, _ => st
  | n + 1, l => sha256iter (processBlock st (l.take 64)) n (l.drop 64)

/-- SHA-256 digest of a byte sequence, as 32 bytes. -/
def sha256bytes (m : List Nat) : List Nat :=
  let p := sha256pad m
  let st := sha256iter shaInit (p.length / 64) p
  beBytes 4 st.s0 ++ beBytes 4 st.s1 ++ beBytes 4 st.s2 ++ beBytes 4 st.s3 ++
  beBytes 4 st.s4 ++ beBytes 4 st.s5 ++ beBytes 4 st.s6 ++ beBytes 4 st.s7

/-- Lowercase hexadecimal digit for a value below 16. -/
def hexDigitChar (n : Nat) : Char :=
  if n < 10 then Char.ofNat (48 + n) else Char.ofNat (87 + n)

/-- Lowercase hexadecimal rendering of a byte sequence, two digits per byte. -/
def hexOfBytes : List Nat → List Char
  | [] => []
  | b :: bs => hexDigitChar (b / 16) :: hexDigitChar (b % 16) :: hexOfBytes bs

/-- `hashlib.sha256(bytes(s, "ascii")).hexdigest()`: the lowercase hex SHA-256
digest of the ASCII encoding of `s`. -/
def sha256HexAscii (s : String) : String :=
  String.mk (hexOfBytes (sha256bytes (asciiBytes s)))

/-- The sixteen lowercase hexadecimal digit characters. -/
def hexChars : String := "0123456789abcdef"

/-! The generic store (`interfaces.py`, class `StoreInterface`).  A store is a
dictionary of entries plus the registered default values (the source keeps the
defaults in a class-level dictionary filled by the static `setdefault`; here
they travel with the store value).  A Python dict binds each key at most once;
it is modelled as an association list queried by first match, with
`__setitem__` removing any previous binding. -/

structure StoreInterface (V : Type) where
  entries : List (String × V)
  defaults : List (String × V)
deriving Repr, DecidableEq

/-- `StoreInterface.__contains__`: membership in the dict itself (defaults are
not consulted). -/
def StoreInterface.contains {V : Type} (st : StoreInterface V) (k : String) : Bool :=
  (st.entries.lookup k).isSome

/-- `StoreInterface.__getitem__`: the stored value if the key is present, else
a registered default, else `None` (never an exception). -/
def StoreInterface.getItem {V : Type} (st : StoreInterface V) (k : String) : Option V :=
  if (st.entries.lookup k).isSome then st.entries.lookup k
  else if (st.defaults.lookup k).isSome then st.defaults.lookup k
  else none

/-- `StoreInterface.setdefault` (classmethod): register a default value for a
key. -/
def StoreInterface.setdefault {V : Type} (st : StoreInterface V) (k : String) (v : V) :
    StoreInterface V :=
  { st with defaults := (k, v) :: st.defaults }

/-- `StoreInterface.__setitem__`: bind the key to the value, replacing any
previous binding. -/
def StoreInterface.setItem {V : Type} (st : StoreInterface V) (k : String) (v : V) :
    StoreInterface V :=
  { st with entries := (k, v) :: st.entries.filter (fun kv => kv.1 ≠ k) }

/-! The master-password manager (`masterpassword.py`, class `MasterPassword`). -/

/-- `MasterPassword.config_key`. -/
def configKey : String := "encrypted_master_password"

/-- The mutable fields of a `MasterPassword` object: its configuration store
and the `password` / `decrypted_master` attributes (`None` = `Option.none`). -/
structure MPState where
  config : StoreInterface String
  password : Option String
  decrypted_master : Option String
deriving Repr, DecidableEq

/-- Exceptions the embedded methods can raise.  `otherError` stands for the
raw Python errors that are not part of the module's taxonomy (`TypeError`,
`ValueError`, `AttributeError`, `UnicodeEncodeError`); `outOfFuel` is the
artificial fuel bound of the embedding, never reached in the theorems. -/
inductive PyErr where
  | wrongMasterPassword
  | walletLocked
  | masterExists
  | otherError
  | outOfFuel
deriving Repr, DecidableEq

/-- Outcome of running a method on a `MasterPassword` object: a return value
or a raised exception, together with the object state when control leaves the
method. -/
inductive Res (α : Type) where
  | ok : α → MPState → Res α
  | err : PyErr → MPState → Res α
deriving Repr, DecidableEq

/-- The external `AESCipher` primitive: password-based string encryption.
`decrypt` returns `none` where the real cipher would raise. -/
structure AEScipher where
  encrypt : String → String → String
  decrypt : String → String → Option String

/-- Ambient context of a run: the cipher implementation and the value of the
`UNLOCK` environment variable (`none` when unset). -/
structure Ctx where
  cipher : AEScipher
  env : Option String

/-- `bool(self.password)`: `False` when no password is held or the held
password is the empty string. -/
def pwTruthy (s : MPState) : Bool :=
  match s.password with
  | some p => truthyStr p
  | none => false

/-- The test `self.config_key in self.config and self.config[self.config_key]`
used by `unlocked`, `unlock` and `new_master`. -/
def entry_truthy (s : MPState) : Bool :=
  s.config.contains configKey && optTruthy (s.config.getItem configKey)

/-- `MasterPassword.has_masterpassword`. -/
def has_masterpassword (s : MPState) : Bool :=
  s.config.contains configKey

/-- `MasterPassword.derive_checksum`: first 4 characters of the lowercase hex
SHA-256 digest of the ASCII encoding; `none` when the string is not
ASCII-encodable (Python `bytes(s, "ascii")` raises `UnicodeEncodeError`). -/
def derive_checksum (s : String) : Option String :=
  if allAscii s then some (String.mk ((sha256HexAscii s).toList.take 4)) else none

/-- `MasterPassword.lock`: discard the held password and the decrypted master
key.  It cannot raise. -/
def lock (s : MPState) : MPState :=
  { s with password := none, decrypted_master := none }

/-- `MasterPassword.raise_wrong_master_password_exception`: clear the held
password, then raise `WrongMasterPasswordException`.  The decrypted master is
not touched. -/
def raise_wrong_master_password_exception (s : MPState) : Res Unit :=
  .err .wrongMasterPassword { s with password := none }

/-- `MasterPassword.decrypt_encrypted_master`.  The entry is split on `"$"`
outside the `try` block (a malformed entry raises a raw error); inside the
`try`, a cipher failure, a checksum-derivation failure or a checksum mismatch
all land in `raise_wrong_master_password_exception`.  On success the decrypted
master becomes resident.  Constructing `AESCipher(None)` or splitting a `None`
entry raises a raw error before the `try`. -/
def decrypt_encrypted_master (C : AEScipher) (s : MPState) : Res Unit :=
  match s.password with
  | none => .err .otherError s
  | some p =>
    match s.config.getItem configKey with
    | none => .err .otherError s
    | some entry =>
      match splitDollar entry with
      | [checksum, encrypted_master] =>
        match C.decrypt p encrypted_master with
        | none => raise_wrong_master_password_exception s
        | some dm =>
          match derive_checksum dm with
          | none => raise_wrong_master_password_exception s
          | some cs =>
            if checksum = cs then .ok () { s with decrypted_master := some dm }
            else raise_wrong_master_password_exception s
      | _ => .err .otherError s

mutual

/-- `MasterPassword.unlocked`.  With a held password the answer is its
truthiness; otherwise, when the `UNLOCK` environment variable and the stored
entry are both truthy, it attempts `self.unlock(os.environ.get("UNLOCK"))`
(whose exceptions propagate) and returns the truthiness of the resulting held
password; otherwise `False`. -/
def unlocked (ctx : Ctx) (rnd : String) (fuel : Nat) (s : MPState) : Res Bool :=
  match fuel with
  | 0 => .err .outOfFuel s
  | f + 1 =>
    match s.password with
    | some p => .ok (truthyStr p) s
    | none =>
      match ctx.env with
      | some v =>
        if truthyStr v && entry_truthy s then
          match unlock ctx rnd f v s with
          | .ok _ s' => .ok (pwTruthy s') s'
          | .err e s' => .err e s'
        else .ok false s
      | none => .ok false s

/-- `MasterPassword.unlock`: hold the password, then decrypt the stored entry
if one is present and truthy, else create a fresh master. -/
def unlock (ctx : Ctx) (rnd : String) (fuel : Nat) (password : String) (s : MPState) : Res Unit :=
  match fuel with
  | 0 => .err .outOfFuel s
  | f + 1 =>
    let s1 : MPState := { s with password := some password }
    if entry_truthy s1 then
      decrypt_encrypted_master ctx.cipher s1
    else
      match new_master ctx rnd f password s1 with
      | .ok _ s2 => .ok () s2
      | .err e s2 => .err e s2

/-- `MasterPassword.new_master`: refuse to overwrite a truthy stored entry,
generate a fresh decrypted master (`rnd` stands for
`hexlify(os.urandom(32)).decode("ascii")`), hold the password, save, and
return `self.masterkey`. -/
def new_master (ctx : Ctx) (rnd : String) (fuel : Nat) (password : String) (s : MPState) :
    Res (Option String) :=
  match fuel with
  | 0 => .err .outOfFuel s
  | f + 1 =>
    if entry_truthy s then .err .masterExists s
    else
      let s1 : MPState := { s with decrypted_master := some rnd, password := some password }
      match save_encrypted_master ctx rnd f s1 with
      | .ok _ s2 => .ok s2.decrypted_master s2
      | .err e s2 => .err e s2

/-- `MasterPassword.save_encrypted_master`: store the encrypted master under
the configuration key. -/
def save_encrypted_master (ctx : Ctx) (rnd : String) (fuel : Nat) (s : MPState) : Res Unit :=
  match fuel with
  | 0 => .err .outOfFuel s
  | f + 1 =>
    match get_encrypted_master ctx rnd f s with
    | .ok v s' => .ok () { s' with config := s'.config.setItem configKey v }
    | .err e s' => .err e s'

/-- `MasterPassword.get_encrypted_master`: raise `WalletLocked` unless
unlocked, then render `checksum $ ciphertext` for the resident master.  A
`None` password or master key, or a non-ASCII master key, raises a raw
error. -/
def get_encrypted_master (ctx : Ctx) (rnd : String) (fuel : Nat) (s : MPState) : Res String :=
  match fuel with
  | 0 => .err .outOfFuel s
  | f + 1 =>
    match unlocked ctx rnd f s with
    | .err e s' => .err e s'
    | .ok b s' =>
      if b then
        match s'.password with
        | none => .err .otherError s'
        | some p =>
          match s'.decrypted_master with
          | none => .err .otherError s'
          | some mk =>
            match derive_checksum mk with
            | none => .err .otherError s'
            | some cs => .ok (cs ++ ("$") ++ ctx.cipher.encrypt p mk) s'
      else .err .walletLocked s'

end

/-- `MasterPassword.locked`: negation of `unlocked` (exceptions from the
auto-unlock attempt propagate). -/
def locked (ctx : Ctx) (rnd : String) (fuel : Nat) (s : MPState) : Res Bool :=
  match unlocked ctx rnd fuel s with
  | .ok b s' => .ok (!b) s'
  | .err e s' => .err e s'

/-- `MasterPassword.change_password`: raise `WalletLocked` unless unlocked,
then hold the new password and save the re-encrypted master. -/
def change_password (ctx : Ctx) (rnd : String) (fuel : Nat) (new_password : String) (s : MPState) :
    Res Unit :=
  match unlocked ctx rnd fuel s with
  | .err e s' => .err e s'
  | .ok b s' =>
    if b then
      save_encrypted_master ctx rnd fuel { s' with password := some new_password }
    else .err .walletLocked s'

/-- `MasterPassword.decrypt`: raise `WalletLocked` unless unlocked, then
delegate to the external `bip38.decrypt` with the resident master key
(`bip38dec` returns `none` where the primitive would raise; a `None` master
key is a raw error). -/
def decrypt (ctx : Ctx) (rnd : String) (fuel : Nat) (bip38dec : String → String → Option String)
    (wif : String) (s : MPState) : Res String :=
  match unlocked ctx rnd fuel s with
  | .err e s' => .err e s'
  | .ok b s' =>
    if b then
      match s'.decrypted_master with
      | none => .err .otherError s'
      | some mk =>
        match bip38dec wif mk with
        | none => .err .otherError s'
        | some x => .ok x s'
    else .err .walletLocked s'

/-- `MasterPassword.encrypt`: raise `WalletLocked` unless unlocked, then
delegate to the external `bip38.encrypt` with the resident master key. -/
def encrypt (ctx : Ctx) (rnd : String) (fuel : Nat) (bip38enc : String → String → String)
    (wif : String) (s : MPState) : Res String :=
  match unlocked ctx rnd fuel s with
  | .err e s' => .err e s'
  | .ok b s' =>
    if b then
      match s'.decrypted_master with
      | none => .err .otherError s'
      | some mk => .ok (bip38enc wif mk) s'
    else .err .walletLocked s'

/-! Concrete fixtures used by witnesses and counterexamples: a toy cipher that
satisfies the documented external contract (round-trips under the matching
password, fails under a non-matching one, produces no `"$"`), the empty store,
and a context with the `UNLOCK` environment variable unset. -/

/-- Toy cipher: `encrypt p x = p ++ ":" ++ x`; `decrypt` succeeds only when
the ciphertext starts with `p ++ ":"`. -/
def tC : AEScipher where
  encrypt := fun p x => p ++ (":") ++ x
  decrypt := fun p c =>
    if c.toList.take (p.length + 1) = (p ++ (":")).toList then
      some (String.mk (c.toList.drop (p.length + 1)))
    else none

/-- Context with the toy cipher and no `UNLOCK` environment variable. -/
def tctx : Ctx := ⟨tC, none⟩

/-- A store with no entries and no registered defaults. -/
def emptyStore : StoreInterface String := ⟨[], []⟩

/-- A freshly constructed manager over an empty store. -/
def mpEmpty : MPState := ⟨emptyStore, none, none⟩

/-! Auxiliary lemmas about strings and splitting. -/

theorem strToList_append (a b : String) : (a ++ b).toList = a.toList ++ b.toList := by
  cases a; cases b; rfl

theorem strMk_toList (s : String) : String.mk s.toList = s := by
  cases s; rfl

theorem str_ne_empty_of_toList (s : String) (h : s.toList ≠ []) : s ≠ "" := by
  intro he
  exact h (by rw [he]; rfl)

theorem splitOnChar_of_not_mem (c : Char) (l : List Char) (h : c ∉ l) :
    splitOnChar c l = [l] := by
  induction l with
  | nil => rfl
  | cons x xs ih =>
    have hx : ¬(x = c) := fun hh => h (hh ▸ List.mem_cons_self x xs)
    have hxs : c ∉ xs := fun hh => h (List.mem_cons_of_mem x hh)
    simp [splitOnChar, hx, ih hxs]

theorem splitOnChar_append (c : Char) (a b : List Char) (ha : c ∉ a) :
    splitOnChar c (a ++ c :: b) = a :: splitOnChar c b := by
  induction a with
  | nil => simp [splitOnChar]
  | cons x xs ih =>
    have hx : ¬(x = c) := fun hh => ha (hh ▸ List.mem_cons_self x xs)
    have hxs : c ∉ xs := fun hh => ha (List.mem_cons_of_mem x hh)
    have hne : splitOnChar c (xs ++ c :: b) = xs :: splitOnChar c b := ih hxs
    simp [splitOnChar, hx, hne]

theorem splitDollar_pair (cs ct : String) (h1 : ('$') ∉ cs.toList) (h2 : ('$') ∉ ct.toList) :
    splitDollar (cs ++ ("$") ++ ct) = [cs, ct] := by
  have hl : (cs ++ ("$") ++ ct).toList = cs.toList ++ ('$') :: ct.toList := by
    simp [strToList_append]
  rw [splitDollar, hl, splitOnChar_append _ _ _ h1, splitOnChar_of_not_mem _ _ h2]
  simp [strMk_toList]

/-! Auxiliary lemmas about the digest: its length, its alphabet, and hence
that a derived checksum is 4 characters of lowercase hex and contains no
`"$"`. -/

theorem length_beBytes (n v : Nat) : (beBytes n v).length = n := by
  induction n generalizing v with
  | zero => rfl
  | succ k ih => simp [beBytes, ih]

theorem mem_beBytes_lt (n v x : Nat) (hx : x ∈ beBytes n v) : x < 256 := by
  induction n generalizing v with
  | zero => simp [beBytes] at hx
  | succ k ih =>
    simp only [beBytes, List.mem_append, List.mem_singleton] at hx
    rcases hx with h | h
    · exact ih _ h
    · rw [h]; exact Nat.mod_lt _ (by norm_num)

theorem length_sha256bytes (m : List Nat) : (sha256bytes m).length = 32 := by
  simp [sha256bytes, length_beBytes]

theorem mem_sha256bytes_lt (m : List Nat) (x : Nat) (hx : x ∈ sha256bytes m) : x < 256 := by
  simp only [sha256bytes, List.mem_append] at hx
  rcases hx with ((((((h | h) | h) | h) | h) | h) | h) | h <;> exact mem_beBytes_lt _ _ _ h

theorem length_hexOfBytes (bs : List Nat) : (hexOfBytes bs).length = 2 * bs.length := by
  induction bs with
  | nil => rfl
  | cons b l ih => simp [hexOfBytes, ih]; omega

theorem hexDigitChar_mem (n : Nat) (h : n < 16) : hexDigitChar n ∈ hexChars.toList := by
  interval_cases n <;> decide

theorem mem_hexOfBytes (bs : List Nat) (hb : ∀ x ∈ bs, x < 256) :
    ∀ ch ∈ hexOfBytes bs, ch ∈ hexChars.toList := by
  induction bs with
  | nil => simp [hexOfBytes]
  | cons b l ih =>
    intro ch hch
    have hb0 : b < 256 := hb b (List.mem_cons_self b l)
    simp only [hexOfBytes, List.mem_cons] at hch
    rcases hch with h | h | h
    · rw [h]
      exact hexDigitChar_mem _ ((Nat.div_lt_iff_lt_mul (by norm_num)).mpr hb0)
    · rw [h]
      exact hexDigitChar_mem _ (Nat.mod_lt _ (by norm_num))
    · exact ih (fun x hx => hb x (List.mem_cons_of_mem b hx)) ch h

theorem sha256Hex_toList (s : String) :
    (sha256HexAscii s).toList = hexOfBytes (sha256bytes (asciiBytes s)) := rfl

theorem length_sha256Hex (s : String) : (sha256HexAscii s).toList.length = 64 := by
  rw [sha256Hex_toList, length_hexOfBytes, length_sha256bytes]

theorem mem_sha256Hex (s : String) :
    ∀ ch ∈ (sha256HexAscii s).toList, ch ∈ hexChars.toList := by
  rw [sha256Hex_toList]
  exact mem_hexOfBytes _ (mem_sha256bytes_lt _)

/-- The checksum value `derive_checksum` produces for an ASCII-encodable
string. -/
def checksumOf (s : String) : String := String.mk ((sha256HexAscii s).toList.take 4)

theorem derive_checksum_ascii (s : String) (h : allAscii s = true) :
    derive_checksum s = some (checksumOf s) := by
  simp [derive_checksum, h, checksumOf]

theorem checksumOf_toList (s : String) :
    (checksumOf s).toList = (sha256HexAscii s).toList.take 4 := rfl

theorem checksumOf_length (s : String) : (checksumOf s).toList.length = 4 := by
  rw [checksumOf_toList, List.length_take, length_sha256Hex]
  decide

theorem checksumOf_no_dollar (s : String) : ('$') ∉ (checksumOf s).toList := by
  intro h
  rw [checksumOf_toList] at h
  have h2 := mem_sha256Hex s _ (List.take_subset 4 _ h)
  revert h2
  decide

theorem checksumOf_ne_empty (s : String) : checksumOf s ≠ "" := by
  apply str_ne_empty_of_toList
  intro h
  have := checksumOf_length s
  rw [h] at this
  exact absurd this (by decide)

theorem entryString_ne_empty (cs ct : String) (h : (cs ++ ("$") ++ ct).toList = cs.toList ++ ('$') :: ct.toList) :
    (cs ++ ("$") ++ ct) ≠ "" := by
  apply str_ne_empty_of_toList
  rw [h]
  simp

/-! Auxiliary lemmas about the store and the entry-truthiness test. -/

theorem lookup_setItem (st : StoreInterface String) (k v : String) :
    (st.setItem k v).entries.lookup k = some v := by
  simp [StoreInterface.setItem, List.lookup]

theorem contains_setItem (st : StoreInterface String) (k v : String) :
    (st.setItem k v).contains k = true := by
  simp [StoreInterface.contains, lookup_setItem]

theorem getItem_setItem (st : StoreInterface String) (k v : String) :
    (st.setItem k v).getItem k = some v := by
  simp [StoreInterface.getItem, lookup_setItem]

theorem entry_truthy_set_password (s : MPState) (p : Option String) :
    entry_truthy { s with password := p } = entry_truthy s := rfl

/-- Claim C1 fails as stated: with the empty-string password, the first
`unlock("")` on a NO_MASTER store raises `WalletLocked` (no entry is
persisted), and after `lock()` the second `unlock("")` generates a second,
different master secret, so `masterkey` does not equal the secret generated by
the first unlock. -/
theorem C1_counterexample :
    unlock tctx ("aa") 9 ("") mpEmpty = .err .walletLocked ⟨emptyStore, some (""), some ("aa")⟩ ∧
    unlock tctx ("bb") 9 ("") (lock ⟨emptyStore, some (""), some ("aa")⟩) =
      .err .walletLocked ⟨emptyStore, some (""), some ("bb")⟩ ∧
    (MPState.mk emptyStore (some ("")) (some ("bb"))).decrypted_master ≠ some ("aa") := by
  decide

/-- Claim C1, amended to non-empty passwords: for every non-empty password `P`
and fresh ASCII master `r`, provided the cipher round-trips under `P` and its
ciphertext contains no `"$"`, `unlock(P)` on a store with no
`encrypted_master_password` entry persists `checksum$ciphertext` and holds
`r`; `lock()` followed by `unlock(P)` again recovers exactly the same resident
master secret `r` from the persisted entry. -/
theorem C1_unlock_lock_unlock_roundtrip
    (C : AEScipher) (env : Option String) (st0 : StoreInterface String)
    (pw0 dm0 : Option String) (P r r2 : String)
    (h0 : st0.contains configKey = false)
    (hP : P ≠ "") (hr : allAscii r = true)
    (hrt : C.decrypt P (C.encrypt P r) = some r)
    (hnd : ('$') ∉ (C.encrypt P r).toList) :
    unlock ⟨C, env⟩ r 9 P ⟨st0, pw0, dm0⟩ =
      .ok () ⟨st0.setItem configKey (checksumOf r ++ ("$") ++ C.encrypt P r), some P, some r⟩ ∧
    unlock ⟨C, env⟩ r2 9 P
        (lock ⟨st0.setItem configKey (checksumOf r ++ ("$") ++ C.encrypt P r), some P, some r⟩) =
      .ok () ⟨st0.setItem configKey (checksumOf r ++ ("$") ++ C.encrypt P r), some P, some r⟩ := by
  have hcs := checksumOf_no_dollar r
  have hsplit := splitDollar_pair (checksumOf r) (C.encrypt P r) hcs hnd
  have hne : (checksumOf r ++ ("$") ++ C.encrypt P r) ≠ "" :=
    entryString_ne_empty _ _ (by simp [strToList_append])
  constructor
  · simp [unlock, new_master, save_encrypted_master, get_encrypted_master, unlocked,
          entry_truthy, h0, derive_checksum_ascii _ hr, truthyStr, hP]
  · simp [lock, unlock, decrypt_encrypted_master, entry_truthy, contains_setItem,
          getItem_setItem, optTruthy, truthyStr, hne, hsplit, hrt,
          derive_checksum_ascii _ hr]

/-- Witness for the amended claim C1 at a concrete input: toy cipher, password
`"a"`, fresh masters `"aa"` and `"bb"`, empty store. -/
theorem C1_roundtrip_witness :
    unlock ⟨tC, none⟩ ("aa") 9 ("a") ⟨emptyStore, none, none⟩ =
      .ok () ⟨emptyStore.setItem configKey (checksumOf ("aa") ++ ("$") ++ tC.encrypt ("a") ("aa")),
              some ("a"), some ("aa")⟩ ∧
    unlock ⟨tC, none⟩ ("bb") 9 ("a")
        (lock ⟨emptyStore.setItem configKey (checksumOf ("aa") ++ ("$") ++ tC.encrypt ("a") ("aa")),
               some ("a"), some ("aa")⟩) =
      .ok () ⟨emptyStore.setItem configKey (checksumOf ("aa") ++ ("$") ++ tC.encrypt ("a") ("aa")),
              some ("a"), some ("aa")⟩ :=
  C1_unlock_lock_unlock_roundtrip tC none emptyStore none none ("a") ("aa") ("bb")
    (by decide) (by decide) (by decide) (by decide) (by decide)

/-- Claim C10: `unlock("")` on a store with no `encrypted_master_password`
entry raises `WalletLocked` (not `WrongMasterPasswordException`, and it does
not succeed): `new_master` generates a fresh decrypted master, then
`save_encrypted_master`'s `unlocked()` check fails because the held empty
password is falsy.  The final state holds the freshly generated
`decrypted_master` resident with the empty password, while no entry has been
written to the config store. -/
theorem C10_empty_password_unlock
    (C : AEScipher) (env : Option String) (st0 : StoreInterface String)
    (pw0 dm0 : Option String) (r : String)
    (h0 : st0.contains configKey = false) :
    unlock ⟨C, env⟩ r 9 ("") ⟨st0, pw0, dm0⟩ = .err .walletLocked ⟨st0, some (""), some r⟩ := by
  simp [unlock, new_master, save_encrypted_master, get_encrypted_master, unlocked,
        entry_truthy, h0, truthyStr]

/-- Witness for claim C10: toy cipher, empty store, fresh master `"aa"`. -/
theorem C10_empty_password_unlock_witness :
    unlock ⟨tC, none⟩ ("aa") 9 ("") ⟨emptyStore, none, none⟩ =
      .err .walletLocked ⟨emptyStore, some (""), some ("aa")⟩ :=
  C10_empty_password_unlock tC none emptyStore none none ("aa") (by decide)

/-- Claim C2: with a store initialized under password `P` (its entry is
`checksum$ciphertext` for master `r` encrypted under `P`) and then locked,
`unlock(Q)` for a password whose decryption fails or yields a value with a
different checksum raises `WrongMasterPasswordException`, discards the held
password (`password` becomes `None`), and leaves the store LOCKED (`locked()`
returns `True` afterwards, with the `UNLOCK` variable unset). -/
theorem C2_unlock_wrong_password
    (C : AEScipher) (st0 : StoreInterface String) (P Q r r2 : String)
    (_hP : P ≠ "") (_hPQ : P ≠ Q) (_hr : allAscii r = true)
    (hnd : ('$') ∉ (C.encrypt P r).toList)
    (hq : ∀ y, C.decrypt Q (C.encrypt P r) = some y →
      derive_checksum y ≠ some (checksumOf r)) :
    unlock ⟨C, none⟩ r2 9 Q
        ⟨st0.setItem configKey (checksumOf r ++ ("$") ++ C.encrypt P r), none, none⟩ =
      .err .wrongMasterPassword
        ⟨st0.setItem configKey (checksumOf r ++ ("$") ++ C.encrypt P r), none, none⟩ ∧
    locked ⟨C, none⟩ r2 9
        ⟨st0.setItem configKey (checksumOf r ++ ("$") ++ C.encrypt P r), none, none⟩ =
      .ok true ⟨st0.setItem configKey (checksumOf r ++ ("$") ++ C.encrypt P r), none, none⟩ := by
  have hcs := checksumOf_no_dollar r
  have hsplit := splitDollar_pair (checksumOf r) (C.encrypt P r) hcs hnd
  have hne : (checksumOf r ++ ("$") ++ C.encrypt P r) ≠ "" :=
    entryString_ne_empty _ _ (by simp [strToList_append])
  constructor
  · cases hdec : C.decrypt Q (C.encrypt P r) with
    | none =>
      simp [unlock, decrypt_encrypted_master, entry_truthy, contains_setItem,
            getItem_setItem, optTruthy, truthyStr, hne, hsplit, hdec,
            raise_wrong_master_password_exception]
    | some y =>
      have hy := hq y hdec
      cases hdy : derive_checksum y with
      | none =>
        simp [unlock, decrypt_encrypted_master, entry_truthy, contains_setItem,
              getItem_setItem, optTruthy, truthyStr, hne, hsplit, hdec, hdy,
              raise_wrong_master_password_exception]
      | some cs2 =>
        have hvne : ¬(checksumOf r = cs2) := fun hh => hy (by rw [hdy, hh])
        simp [unlock, decrypt_encrypted_master, entry_truthy, contains_setItem,
              getItem_setItem, optTruthy, truthyStr, hne, hsplit, hdec, hdy, hvne,
              raise_wrong_master_password_exception]
  · simp [locked, unlocked]

/-- Witness for claim C2: toy cipher, store initialized under `"a"` with
master `"aa"`, wrong password `"b"`. -/
theorem C2_unlock_wrong_password_witness :
    unlock ⟨tC, none⟩ ("bb") 9 ("b")
        ⟨emptyStore.setItem configKey (checksumOf ("aa") ++ ("$") ++ tC.encrypt ("a") ("aa")),
         none, none⟩ =
      .err .wrongMasterPassword
        ⟨emptyStore.setItem configKey (checksumOf ("aa") ++ ("$") ++ tC.encrypt ("a") ("aa")),
         none, none⟩ ∧
    locked ⟨tC, none⟩ ("bb") 9
        ⟨emptyStore.setItem configKey (checksumOf ("aa") ++ ("$") ++ tC.encrypt ("a") ("aa")),
         none, none⟩ =
      .ok true
        ⟨emptyStore.setItem configKey (checksumOf ("aa") ++ ("$") ++ tC.encrypt ("a") ("aa")),
         none, none⟩ :=
  C2_unlock_wrong_password tC emptyStore ("a") ("b") ("aa") ("bb")
    (by decide) (by decide) (by decide) (by decide)
    (by
      intro y h
      have hn : tC.decrypt ("b") (tC.encrypt ("a") ("aa")) = none := by decide
      rw [hn] at h
      exact Option.noConfusion h)

/-- Claim C4: inside `decrypt_encrypted_master`, a cipher exception and a
checksum mismatch produce literally the same observable outcome — the same
raised `WrongMasterPasswordException` and the same final state, with the held
password cleared and the rest of the state untouched — so the caller cannot
distinguish garbled ciphertext from a wrong password.  The second branch also
covers a checksum derivation failure on the decrypted value, which the
source's bare `except` collapses to the same outcome. -/
theorem C4_cipher_error_vs_checksum_mismatch
    (C : AEScipher) (st : StoreInterface String) (dm0 : Option String)
    (p entry cs ct : String)
    (hcfg : st.getItem configKey = some entry)
    (hsplit : splitDollar entry = [cs, ct]) :
    (C.decrypt p ct = none →
      decrypt_encrypted_master C ⟨st, some p, dm0⟩ =
        .err .wrongMasterPassword ⟨st, none, dm0⟩) ∧
    (∀ y, C.decrypt p ct = some y → derive_checksum y ≠ some cs →
      decrypt_encrypted_master C ⟨st, some p, dm0⟩ =
        .err .wrongMasterPassword ⟨st, none, dm0⟩) := by
  constructor
  · intro hdec
    simp [decrypt_encrypted_master, hcfg, hsplit, hdec,
          raise_wrong_master_password_exception]
  · intro y hdec hy
    cases hdy : derive_checksum y with
    | none =>
      simp [decrypt_encrypted_master, hcfg, hsplit, hdec, hdy,
            raise_wrong_master_password_exception]
    | some cs2 =>
      have hvne : ¬(cs = cs2) := fun hh => hy (by rw [hdy, hh])
      simp [decrypt_encrypted_master, hcfg, hsplit, hdec, hdy, hvne,
            raise_wrong_master_password_exception]

/-- Witness for claim C4: under the toy cipher and password `"b"`, the
undecryptable entry `0000$qq` and the decryptable-but-mismatching entry
`0000$b:zz` produce identical outcomes. -/
theorem C4_cipher_error_vs_checksum_mismatch_witness :
    decrypt_encrypted_master tC ⟨⟨[(configKey, ("0000$qq"))], []⟩, some ("b"), none⟩ =
      .err .wrongMasterPassword ⟨⟨[(configKey, ("0000$qq"))], []⟩, none, none⟩ ∧
    decrypt_encrypted_master tC ⟨⟨[(configKey, ("0000$b:zz"))], []⟩, some ("b"), none⟩ =
      .err .wrongMasterPassword ⟨⟨[(configKey, ("0000$b:zz"))], []⟩, none, none⟩ :=
  ⟨(C4_cipher_error_vs_checksum_mismatch tC ⟨[(configKey, ("0000$qq"))], []⟩ none
      ("b") ("0000$qq") ("0000") ("qq") (by decide) (by decide)).1 (by decide),
   (C4_cipher_error_vs_checksum_mismatch tC ⟨[(configKey, ("0000$b:zz"))], []⟩ none
      ("b") ("0000$b:zz") ("0000") ("b:zz") (by decide) (by decide)).2
     ("zz") (by decide) (by decide)⟩

/-- Claim C5 fails as stated: a failed auto-unlock attempt is not silent.
With `UNLOCK` set to `"w"`, no held password and a stored entry the toy
cipher cannot decrypt under `"w"`, `unlocked()` propagates the
`WrongMasterPasswordException` raised by the attempted `unlock` instead of
returning `False`. -/
theorem C5_counterexample :
    unlocked ⟨tC, some ("w")⟩ ("rr") 9 ⟨⟨[(configKey, ("00$zz"))], []⟩, none, none⟩ =
      .err .wrongMasterPassword ⟨⟨[(configKey, ("00$zz"))], []⟩, none, none⟩ := by
  decide

/-- Claim C5, amended: when no password is held and both the `UNLOCK`
environment value and the stored entry are truthy, `unlocked()` attempts
`unlock` with the environment value; on success it returns the truthiness of
the now-held password, but on failure the exception propagates to the caller
of `unlocked()` — the failure is not silent. -/
theorem C5_auto_unlock_attempt
    (C : AEScipher) (v rnd : String) (s : MPState)
    (hpw : s.password = none) (hv : v ≠ "") (hentry : entry_truthy s = true) :
    unlocked ⟨C, some v⟩ rnd 9 s =
      (match unlock ⟨C, some v⟩ rnd 8 v s with
       | .ok _ s2 => .ok (pwTruthy s2) s2
       | .err e s2 => .err e s2) := by
  simp [unlocked, hpw, truthyStr, hv, hentry]

/-- Witness for the amended claim C5 at a concrete input: store entry
`8fa1$w:mm` with `UNLOCK` set to `"w"`. -/
theorem C5_auto_unlock_attempt_witness :
    unlocked ⟨tC, some ("w")⟩ ("rr") 9 ⟨⟨[(configKey, ("8fa1$w:mm"))], []⟩, none, none⟩ =
      (match unlock ⟨tC, some ("w")⟩ ("rr") 8 ("w")
          ⟨⟨[(configKey, ("8fa1$w:mm"))], []⟩, none, none⟩ with
       | .ok _ s2 => .ok (pwTruthy s2) s2
       | .err e s2 => .err e s2) :=
  C5_auto_unlock_attempt tC ("w") ("rr") ⟨⟨[(configKey, ("8fa1$w:mm"))], []⟩, none, none⟩
    (by decide) (by decide) (by decide)

/-- Claim C6: whenever the manager is not unlocked — no held password with no
applicable `UNLOCK` auto-unlock, or a held falsy (empty) password —
`encrypt`, `decrypt` and `change_password` all raise `WalletLocked` and leave
the state (config store entry, held password, resident master) exactly
unchanged, for arbitrary bip38 primitives. -/
theorem C6_locked_ops_raise
    (C : AEScipher) (env : Option String) (rnd : String)
    (benc : String → String → String) (bdec : String → String → Option String)
    (wif Q : String) (s : MPState)
    (hlock : (s.password = none ∧ ¬(optTruthy env = true ∧ entry_truthy s = true)) ∨
      s.password = some ("")) :
    encrypt ⟨C, env⟩ rnd 9 benc wif s = .err .walletLocked s ∧
    decrypt ⟨C, env⟩ rnd 9 bdec wif s = .err .walletLocked s ∧
    change_password ⟨C, env⟩ rnd 9 Q s = .err .walletLocked s := by
  have hu : unlocked ⟨C, env⟩ rnd 9 s = .ok false s := by
    rcases hlock with ⟨hpw, hni⟩ | hpw
    · cases henv : env with
      | none => simp [unlocked, hpw]
      | some v =>
        rw [henv] at hni
        have hcond : (truthyStr v && entry_truthy s) = false := by
          cases htv : truthyStr v
          · simp
          · cases het : entry_truthy s
            · simp
            · exact absurd ⟨by simp [optTruthy, htv], het⟩ hni
        simp [unlocked, hpw, hcond]
    · simp [unlocked, hpw, truthyStr]
  exact ⟨by simp [encrypt, hu], by simp [decrypt, hu], by simp [change_password, hu]⟩

/-- Witness for claim C6: a LOCKED manager (entry present, no held password,
`UNLOCK` unset) with concrete bip38 primitives. -/
theorem C6_locked_ops_raise_witness :
    encrypt ⟨tC, none⟩ ("rr") 9 (fun w m => w ++ m) ("k1")
        ⟨⟨[(configKey, ("00$zz"))], []⟩, none, none⟩ =
      .err .walletLocked ⟨⟨[(configKey, ("00$zz"))], []⟩, none, none⟩ ∧
    decrypt ⟨tC, none⟩ ("rr") 9 (fun w _ => some w) ("k1")
        ⟨⟨[(configKey, ("00$zz"))], []⟩, none, none⟩ =
      .err .walletLocked ⟨⟨[(configKey, ("00$zz"))], []⟩, none, none⟩ ∧
    change_password ⟨tC, none⟩ ("rr") 9 ("q")
        ⟨⟨[(configKey, ("00$zz"))], []⟩, none, none⟩ =
      .err .walletLocked ⟨⟨[(configKey, ("00$zz"))], []⟩, none, none⟩ :=
  C6_locked_ops_raise tC none ("rr") (fun w m => w ++ m) (fun w _ => some w) ("k1") ("q")
    ⟨⟨[(configKey, ("00$zz"))], []⟩, none, none⟩ (Or.inl (by decide))

/-- Claim C3 fails as stated: starting from a fresh store, `unlock("a")`
succeeds (entry `961b$a:aa`, master `"aa"` resident); a subsequent wrong
`unlock("b")` raises `WrongMasterPasswordException` and afterwards `locked()`
returns `True`, yet the decrypted master secret `"aa"` is still resident —
`raise_wrong_master_password_exception` clears only the held password. -/
theorem C3_counterexample :
    unlock tctx ("aa") 9 ("a") mpEmpty =
      .ok () ⟨emptyStore.setItem configKey ("961b$a:aa"), some ("a"), some ("aa")⟩ ∧
    unlock tctx ("bb") 9 ("b")
        ⟨emptyStore.setItem configKey ("961b$a:aa"), some ("a"), some ("aa")⟩ =
      .err .wrongMasterPassword
        ⟨emptyStore.setItem configKey ("961b$a:aa"), none, some ("aa")⟩ ∧
    locked tctx ("bb") 9 ⟨emptyStore.setItem configKey ("961b$a:aa"), none, some ("aa")⟩ =
      .ok true ⟨emptyStore.setItem configKey ("961b$a:aa"), none, some ("aa")⟩ ∧
    MPState.decrypted_master
        ⟨emptyStore.setItem configKey ("961b$a:aa"), none, some ("aa")⟩ ≠ none := by
  decide

/-- Claim C3, amended: `lock()` always clears both the held password and the
resident master, but an `unlock` attempt that raises
`WrongMasterPasswordException` clears only the held password and leaves
`decrypted_master` exactly as it was before the attempt; hence a LOCKED
manager has no resident master only when none was resident before the failed
attempt. -/
theorem C3_lock_clears_wrong_password_preserves
    (ctx : Ctx) (rnd P : String) (s s' : MPState) :
    ((lock s).password = none ∧ (lock s).decrypted_master = none) ∧
    (unlock ctx rnd 9 P s = .err .wrongMasterPassword s' →
      s'.password = none ∧ s'.decrypted_master = s.decrypted_master) := by
  refine ⟨⟨rfl, rfl⟩, ?_⟩
  intro hu
  by_cases hE : entry_truthy s = true
  · rw [unlock] at hu
    rw [entry_truthy_set_password, hE, if_pos rfl] at hu
    rw [decrypt_encrypted_master] at hu
    simp only at hu
    cases hg : ({ s with password := some P } : MPState).config.getItem configKey with
    | none => rw [hg] at hu; simp at hu
    | some entry =>
      rw [hg] at hu
      simp only at hu
      rcases hsd : splitDollar entry with _ | ⟨a, _ | ⟨b, _ | ⟨c, rest⟩⟩⟩
      · rw [hsd] at hu; simp at hu
      · rw [hsd] at hu; simp at hu
      · rw [hsd] at hu
        simp only at hu
        cases hdec : ctx.cipher.decrypt P b with
        | none =>
          rw [hdec] at hu
          rw [raise_wrong_master_password_exception] at hu
          simp only [Res.err.injEq] at hu
          rw [← hu.2]
          exact ⟨rfl, rfl⟩
        | some y =>
          rw [hdec] at hu
          simp only at hu
          cases hdy : derive_checksum y with
          | none =>
            rw [hdy] at hu
            rw [raise_wrong_master_password_exception] at hu
            simp only [Res.err.injEq] at hu
            rw [← hu.2]
            exact ⟨rfl, rfl⟩
          | some cs =>
            rw [hdy] at hu
            simp only at hu
            by_cases hcs : a = cs
            · rw [if_pos hcs] at hu; simp at hu
            · rw [if_neg hcs] at hu
              rw [raise_wrong_master_password_exception] at hu
              simp only [Res.err.injEq] at hu
              rw [← hu.2]
              exact ⟨rfl, rfl⟩
      · rw [hsd] at hu; simp at hu
  · have hEf : entry_truthy s = false := by revert hE; cases entry_truthy s <;> simp
    rw [unlock] at hu
    rw [entry_truthy_set_password, hEf] at hu
    simp only [Bool.false_eq_true, if_false] at hu
    rw [new_master] at hu
    rw [entry_truthy_set_password, hEf] at hu
    simp only [Bool.false_eq_true, if_false] at hu
    rw [save_encrypted_master] at hu
    rw [get_encrypted_master] at hu
    rw [unlocked] at hu
    simp only at hu
    cases htP : truthyStr P with
    | false => rw [htP] at hu; simp at hu
    | true =>
      rw [htP] at hu
      simp only [if_pos rfl] at hu
      cases hdr : derive_checksum rnd with
      | none => rw [hdr] at hu; simp at hu
      | some cs => rw [hdr] at hu; simp at hu

/-- Witness for the amended claim C3: a wrong `unlock("b")` on a LOCKED
manager that still has master `"mm"` resident clears the password and leaves
the resident master exactly as it was. -/
theorem C3_lock_clears_wrong_password_preserves_witness :
    MPState.password ⟨⟨[(configKey, ("00$zz"))], []⟩, none, some ("mm")⟩ = none ∧
    MPState.decrypted_master ⟨⟨[(configKey, ("00$zz"))], []⟩, none, some ("mm")⟩ =
      MPState.decrypted_master ⟨⟨[(configKey, ("00$zz"))], []⟩, none, some ("mm")⟩ :=
  (C3_lock_clears_wrong_password_preserves tctx ("rr") ("b")
    ⟨⟨[(configKey, ("00$zz"))], []⟩, none, some ("mm")⟩
    ⟨⟨[(configKey, ("00$zz"))], []⟩, none, some ("mm")⟩).2 (by decide)

/-- Claim C7 fails as stated: with the empty new password `Q = ""`,
`change_password("")` on a manager unlocked under `"a"` raises `WalletLocked`
(after already overwriting the held password with `""`), the entry is not
re-encrypted, and after `lock()` the subsequent `unlock("")` raises
`WrongMasterPasswordException` instead of succeeding — the master secret
`"mm"` is not recovered. -/
theorem C7_counterexample :
    change_password tctx ("rr") 9 ("")
        ⟨emptyStore.setItem configKey ("8fa1$a:mm"), some ("a"), some ("mm")⟩ =
      .err .walletLocked
        ⟨emptyStore.setItem configKey ("8fa1$a:mm"), some (""), some ("mm")⟩ ∧
    unlock tctx ("rr") 9 ("")
        (lock ⟨emptyStore.setItem configKey ("8fa1$a:mm"), some (""), some ("mm")⟩) =
      .err .wrongMasterPassword ⟨emptyStore.setItem configKey ("8fa1$a:mm"), none, none⟩ ∧
    MPState.decrypted_master ⟨emptyStore.setItem configKey ("8fa1$a:mm"), none, none⟩ ≠
      some ("mm") := by
  decide

/-- Claim C7, amended to a non-empty new password: while unlocked under `P`
with master `M` resident, `change_password(Q)` for `Q ≠ ""` re-encrypts `M`
under `Q` and overwrites the entry; after `lock()`, `unlock(Q)` succeeds and
recovers the identical master `M`; a subsequent `unlock(P)` (whose decryption
fails or yields a wrong-checksum value) raises
`WrongMasterPasswordException`. -/
theorem C7_change_password_roundtrip
    (C : AEScipher) (st1 : StoreInterface String) (P Q M r : String)
    (hP : P ≠ "") (hQ : Q ≠ "") (hM : allAscii M = true)
    (hrtQ : C.decrypt Q (C.encrypt Q M) = some M)
    (hndQ : ('$') ∉ (C.encrypt Q M).toList)
    (hPfail : ∀ y, C.decrypt P (C.encrypt Q M) = some y →
      derive_checksum y ≠ some (checksumOf M)) :
    change_password ⟨C, none⟩ r 9 Q ⟨st1, some P, some M⟩ =
      .ok () ⟨st1.setItem configKey (checksumOf M ++ ("$") ++ C.encrypt Q M), some Q, some M⟩ ∧
    unlock ⟨C, none⟩ r 9 Q
        (lock ⟨st1.setItem configKey (checksumOf M ++ ("$") ++ C.encrypt Q M), some Q, some M⟩) =
      .ok () ⟨st1.setItem configKey (checksumOf M ++ ("$") ++ C.encrypt Q M), some Q, some M⟩ ∧
    unlock ⟨C, none⟩ r 9 P
        ⟨st1.setItem configKey (checksumOf M ++ ("$") ++ C.encrypt Q M), some Q, some M⟩ =
      .err .wrongMasterPassword
        ⟨st1.setItem configKey (checksumOf M ++ ("$") ++ C.encrypt Q M), none, some M⟩ := by
  have hcs := checksumOf_no_dollar M
  have hsplit := splitDollar_pair (checksumOf M) (C.encrypt Q M) hcs hndQ
  have hne : (checksumOf M ++ ("$") ++ C.encrypt Q M) ≠ "" :=
    entryString_ne_empty _ _ (by simp [strToList_append])
  refine ⟨?_, ?_, ?_⟩
  · simp [change_password, unlocked, save_encrypted_master, get_encrypted_master,
          truthyStr, hP, hQ, derive_checksum_ascii _ hM]
  · simp [lock, unlock, decrypt_encrypted_master, entry_truthy, contains_setItem,
          getItem_setItem, optTruthy, truthyStr, hne, hsplit, hrtQ,
          derive_checksum_ascii _ hM]
  · cases hdec : C.decrypt P (C.encrypt Q M) with
    | none =>
      simp [unlock, decrypt_encrypted_master, entry_truthy, contains_setItem,
            getItem_setItem, optTruthy, truthyStr, hne, hsplit, hdec,
            raise_wrong_master_password_exception]
    | some y =>
      have hy := hPfail y hdec
      cases hdy : derive_checksum y with
      | none =>
        simp [unlock, decrypt_encrypted_master, entry_truthy, contains_setItem,
              getItem_setItem, optTruthy, truthyStr, hne, hsplit, hdec, hdy,
              raise_wrong_master_password_exception]
      | some cs2 =>
        have hvne : ¬(checksumOf M = cs2) := fun hh => hy (by rw [hdy, hh])
        simp [unlock, decrypt_encrypted_master, entry_truthy, contains_setItem,
              getItem_setItem, optTruthy, truthyStr, hne, hsplit, hdec, hdy, hvne,
              raise_wrong_master_password_exception]

/-- Witness for the amended claim C7: toy cipher, old password `"a"`, new
password `"b"`, master `"mm"`, starting from the genuine unlocked state whose
entry is `8fa1$a:mm`. -/
theorem C7_change_password_roundtrip_witness :
    change_password ⟨tC, none⟩ ("rr") 9 ("b")
        ⟨emptyStore.setItem configKey ("8fa1$a:mm"), some ("a"), some ("mm")⟩ =
      .ok () ⟨(emptyStore.setItem configKey ("8fa1$a:mm")).setItem configKey
                (checksumOf ("mm") ++ ("$") ++ tC.encrypt ("b") ("mm")),
              some ("b"), some ("mm")⟩ ∧
    unlock ⟨tC, none⟩ ("rr") 9 ("b")
        (lock ⟨(emptyStore.setItem configKey ("8fa1$a:mm")).setItem configKey
                 (checksumOf ("mm") ++ ("$") ++ tC.encrypt ("b") ("mm")),
               some ("b"), some ("mm")⟩) =
      .ok () ⟨(emptyStore.setItem configKey ("8fa1$a:mm")).setItem configKey
                (checksumOf ("mm") ++ ("$") ++ tC.encrypt ("b") ("mm")),
              some ("b"), some ("mm")⟩ ∧
    unlock ⟨tC, none⟩ ("rr") 9 ("a")
        ⟨(emptyStore.setItem configKey ("8fa1$a:mm")).setItem configKey
           (checksumOf ("mm") ++ ("$") ++ tC.encrypt ("b") ("mm")),
         some ("b"), some ("mm")⟩ =
      .err .wrongMasterPassword
        ⟨(emptyStore.setItem configKey ("8fa1$a:mm")).setItem configKey
           (checksumOf ("mm") ++ ("$") ++ tC.encrypt ("b") ("mm")),
         none, some ("mm")⟩ :=
  C7_change_password_roundtrip tC (emptyStore.setItem configKey ("8fa1$a:mm"))
    ("a") ("b") ("mm") ("rr") (by decide) (by decide) (by decide) (by decide) (by decide)
    (by
      intro y h
      have hn : tC.decrypt ("a") (tC.encrypt ("b") ("mm")) = none := by decide
      rw [hn] at h
      exact Option.noConfusion h)

/-- Claim C8: for any ASCII-encodable input, `derive_checksum(s)` is exactly
the first 4 characters of the lowercase hexadecimal SHA-256 digest of the
ASCII encoding of `s`; it is a 4-character string over the lowercase hex
alphabet, and two calls on the same input yield the same result (the model is
a pure function, so determinism is also immediate). -/
theorem C8_derive_checksum_spec (s : String) (h : allAscii s = true) :
    derive_checksum s = some (String.mk ((sha256HexAscii s).toList.take 4)) ∧
    (∀ t, derive_checksum s = some t → t.toList.length = 4) ∧
    (∀ t, derive_checksum s = some t → ∀ c ∈ t.toList, c ∈ hexChars.toList) ∧
    (∀ r1 r2 : Option String, derive_checksum s = r1 → derive_checksum s = r2 → r1 = r2) := by
  refine ⟨derive_checksum_ascii s h, ?_, ?_, ?_⟩
  · intro t ht
    rw [derive_checksum_ascii s h] at ht
    have h2 := Option.some.inj ht
    rw [← h2]
    exact checksumOf_length s
  · intro t ht c hc
    rw [derive_checksum_ascii s h] at ht
    have h2 := Option.some.inj ht
    rw [← h2, checksumOf_toList] at hc
    exact mem_sha256Hex s c (List.take_subset 4 _ hc)
  · intro r1 r2 h1 h2
    rw [← h1, ← h2]

/-- Witness for claim C8 at the concrete input `"abc"`. -/
theorem C8_derive_checksum_spec_witness :
    allAscii ("abc") = true ∧
    derive_checksum ("abc") = some (String.mk ((sha256HexAscii ("abc")).toList.take 4)) :=
  ⟨by decide, (C8_derive_checksum_spec ("abc") (by decide)).1⟩

/-- Claim C9: `StoreInterface.__getitem__` returns the stored value when the
key is bound in the store, else a registered default when one exists for the
key, else `None`; being a total function into `Option`, it never raises for a
missing key. -/
theorem C9_getItem_semantics (V : Type) (st : StoreInterface V) (k : String) :
    (∀ v, st.entries.lookup k = some v → st.getItem k = some v) ∧
    (st.entries.lookup k = none → ∀ d, st.defaults.lookup k = some d → st.getItem k = some d) ∧
    (st.entries.lookup k = none → st.defaults.lookup k = none → st.getItem k = none) := by
  refine ⟨?_, ?_, ?_⟩
  · intro v hv
    simp [StoreInterface.getItem, hv]
  · intro h1 d hd
    simp [StoreInterface.getItem, h1, hd]
  · intro h1 h2
    simp [StoreInterface.getItem, h1, h2]

/-- Witness for claim C9: a store binding `"a"` to `1` with a default `2`
registered for `"b"`. -/
theorem C9_getItem_semantics_witness :
    (([(("a"), 1)] : List (String × Nat)).lookup ("a") = some 1) ∧
    StoreInterface.getItem ⟨[(("a"), 1)], [(("b"), 2)]⟩ ("a") = some 1 :=
  ⟨by decide, (C9_getItem_semantics Nat ⟨[(("a"), 1)], [(("b"), 2)]⟩ ("a")).1 1 (by decide)⟩
